import Mathlib

/-!
# Verification of the audio-transcribe live voice-chat client

Shallow embedding of the core of the repository: the PCM codec, the playback
scheduler, the turn aggregator and the session controller that live in the
application component (`src/unnamed/part_000`, the React `App` component) and
in the audio utility module it imports (`services/audioUtils`, referenced by
the app but not present under `src/`; those functions are modelled from the
spec, §4.1, and are marked as such below).

Conventions of the embedding:
* JavaScript numbers that hold audio samples, clock times and durations are
  modelled as rationals (`ℚ`).
* The mutable refs and React state of the component are gathered into one
  `AppState` record; each event handler becomes a state-transition function.
* `crypto.randomUUID()` is modelled by a fresh-id counter `nextId`;
  `Date.now()` is passed in explicitly as a timestamp argument.
* Fallible codec functions return `Except CodecError`.
-/

namespace AudioTranscribe

/-! ## PCM codec (`services/audioUtils`)

The module is imported by the app (`decode`, `decodeAudioData`, `createBlob`)
but its source file is not under `src/`; every definition in this section is
modelled from the spec, §4.1. -/

/-- Error taxonomy of the codec (spec §4.1 / §7): `malformedData` for an
invalid base64 payload, `decodeError` for a byte sequence that is not valid
16-bit PCM. -/
inductive CodecError where
  | malformedData
  | decodeError
deriving DecidableEq

/-- Modelled from the spec: value of one character of the standard base64
alphabet (`A`–`Z`, `a`–`z`, `0`–`9`, `+`, `/`), `none` for any other
character. -/
def b64Val (c : Char) : Option ℕ :=
  if 'A' ≤ c ∧ c ≤ 'Z' then some (c.toNat - 65)
  else if 'a' ≤ c ∧ c ≤ 'z' then some (c.toNat - 71)
  else if '0' ≤ c ∧ c ≤ '9' then some (c.toNat + 4)
  else if c = '+' then some 62
  else if c = '/' then some 63
  else none

/-- Modelled from the spec: decode base64 characters in groups of four,
allowing `=` padding only at the very end; `none` when the input is not valid
base64 (wrong length or a character outside the alphabet). -/
def b64Groups : List Char → Option (List ℕ)
  | [] => some []
  | a :: b :: c :: d :: rest =>
    match b64Val a, b64Val b with
    | some va, some vb =>
      if c = '=' ∧ d = '=' ∧ rest = [] then
        some [va * 4 + vb / 16]
      else if d = '=' ∧ rest = [] then
        match b64Val c with
        | some vc => some [va * 4 + vb / 16, vb % 16 * 16 + vc / 4]
        | none => none
      else
        match b64Val c, b64Val d with
        | some vc, some vd =>
          (b64Groups rest).map
            fun tail => (va * 4 + vb / 16) :: (vb % 16 * 16 + vc / 4) :: (vc % 4 * 64 + vd) :: tail
        | _, _ => none
    | _, _ => none
  | _ => none

/-- Modelled from the spec (§4.1): `decode(base64: string) -> bytes`,
"standard base64 decode; fails with `MalformedDataError` on invalid input".
This is `decode` of `services/audioUtils`, whose source is not under `src/`. -/
def decode (s : String) : Except CodecError (List ℕ) :=
  match b64Groups s.data with
  | some bytes => .ok bytes
  | none => .error .malformedData

/-- Clamp a sample to `[-1, 1]` (spec §4.1, first step of `encode`). -/
def clampSample (x : ℚ) : ℚ := max (-1) (min 1 x)

/-- Truncation of a rational toward zero, the conversion a JavaScript
`Int16Array` store applies to a non-integral number. -/
def truncQ (x : ℚ) : ℤ := if 0 ≤ x then ⌊x⌋ else ⌈x⌉

/-- Modelled from the spec (§4.1): scale one clamped sample to the signed
16-bit range — "multiply by 32767 if non-negative, 32768 if negative, to
preserve symmetric range". -/
def quantizeSample (x : ℚ) : ℤ :=
  let c := clampSample x
  if 0 ≤ c then truncQ (c * 32767) else truncQ (c * 32768)

/-- Two little-endian bytes of a signed 16-bit value (spec §4.1: "emit two
bytes little-endian"). -/
def int16ToBytes (q : ℤ) : List ℕ :=
  let u := (q % 65536).toNat
  [u % 256, u / 256]

/-- Modelled from the spec (§4.1): `encode(samples) -> bytes` — for each
sample, clamp, scale to signed 16-bit, emit two bytes little-endian. This is
`createBlob`'s sample conversion in `services/audioUtils`, whose source is
not under `src/`. -/
def encode : List ℚ → List ℕ
  | [] => []
  | x :: xs => int16ToBytes (quantizeSample x) ++ encode xs

/-- One sample back from two little-endian bytes: 16-bit signed
interpretation, divided by 32768 (spec §4.1). -/
def int16FromBytes (lo hi : ℕ) : ℚ :=
  let u := lo + 256 * hi
  let s : ℤ := if u < 32768 then (u : ℤ) else (u : ℤ) - 65536
  (s : ℚ) / 32768

/-- All samples of a 16-bit little-endian PCM byte sequence. -/
def bytesToSamples : List ℕ → List ℚ
  | lo :: hi :: rest => int16FromBytes lo hi :: bytesToSamples rest
  | _ => []

/-- A decoded, playable audio buffer: its samples and its duration in
seconds. -/
structure AudioBufferModel where
  samples : List ℚ
  duration : ℚ
deriving DecidableEq

/-- Modelled from the spec (§4.1): `decodeToAudioBuffer(bytes, sampleRateHz,
channelCount)` — interpret bytes as 16-bit little-endian signed PCM, divide
each sample by 32768, duration = sampleCount / sampleRateHz; fails with
`DecodeError` if the byte length is not a multiple of 2. This is
`decodeAudioData` of `services/audioUtils`, whose source is not under
`src/`. -/
def decodeToAudioBuffer (bytes : List ℕ) (sampleRateHz : ℚ) (channelCount : ℕ) :
    Except CodecError AudioBufferModel :=
  if bytes.length % 2 = 0 then
    .ok ⟨bytesToSamples bytes, ((bytes.length / 2 / channelCount : ℕ) : ℚ) / sampleRateHz⟩
  else .error .decodeError

/-- The app's inbound decode pipeline (`src/unnamed/part_000`, line 125):
`decodeAudioData(decode(base64Audio), outputCtx, 24000, 1)`. -/
def decodeChunk (payload : String) : Except CodecError AudioBufferModel :=
  (decode payload).bind fun bytes => decodeToAudioBuffer bytes 24000 1

/-! ## Data model of the app component (`src/unnamed/part_000`) -/

/-- Sender of a transcript entry (`'user' | 'model'`). -/
inductive Sender where
  | user
  | model
deriving DecidableEq

/-- `TranscriptionEntry` (lines 25–30): id, sender, text, timestamp. The
opaque `crypto.randomUUID()` id is modelled as a natural drawn from the
fresh-id counter. -/
structure TranscriptionEntry where
  id : ℕ
  sender : Sender
  text : String
  timestamp : ℤ
deriving DecidableEq

/-- `LiveSessionState` (lines 11–15): `{ isActive, isConnecting, error }`. -/
structure LiveSessionState where
  isActive : Bool
  isConnecting : Bool
  error : Option String
deriving DecidableEq

/-- One scheduled playback source (an `AudioBufferSourceNode` held in
`sourcesRef`): where it was scheduled to start, its duration, whether it is
still in the live set, and whether `stop()` has been called on it. -/
structure Chunk where
  start : ℚ
  duration : ℚ
  live : Bool
  stopped : Bool
deriving DecidableEq

/-- The whole mutable state of the `App` component: React state (`entries`,
`currentInput`, `currentOutput`, `sessionState`) and the refs
(`nextStartTimeRef`, `sourcesRef` as the `live` flags of `chunks`,
`audioContextsRef`/`streamRef`/`sessionPromiseRef` as open flags). `chunks`
records every source ever created, in scheduling order; `nextId` feeds fresh
entry ids. -/
structure AppState where
  entries : List TranscriptionEntry
  currentInput : String
  currentOutput : String
  sessionState : LiveSessionState
  nextStartTime : ℚ
  chunks : List Chunk
  contextsOpen : Bool
  streamOpen : Bool
  sessionOpen : Bool
  nextId : ℕ
deriving DecidableEq

/-- The component's initial state (lines 8–21). -/
def initState : AppState :=
  { entries := [], currentInput := "", currentOutput := "",
    sessionState := ⟨false, false, none⟩, nextStartTime := 0, chunks := [],
    contextsOpen := false, streamOpen := false, sessionOpen := false, nextId := 0 }

/-- A state in the middle of an active session, right after `onopen`
(line 82): contexts, stream and session all open, no playback yet. -/
def activeState : AppState :=
  { entries := [], currentInput := "", currentOutput := "",
    sessionState := ⟨true, false, none⟩, nextStartTime := 0, chunks := [],
    contextsOpen := true, streamOpen := true, sessionOpen := true, nextId := 0 }

/-! ## Turn aggregator (`addEntry`, transcription branches of `onmessage`) -/

/-- JavaScript `String.prototype.trim`: drop whitespace from both ends.
(`String.trim` of the Lean core library is equivalent but is defined by
well-founded recursion; this structural version keeps the definitions
evaluable.) -/
def jsTrim (s : String) : String :=
  ⟨((s.data.dropWhile Char.isWhitespace).reverse.dropWhile Char.isWhitespace).reverse⟩

/-- `addEntry` (lines 23–31): drop the entry when the text trims to empty,
otherwise append `{id, sender, text, timestamp}` to `entries` — note the
stored text is the untrimmed original. -/
def addEntry (s : AppState) (sender : Sender) (text : String) (now : ℤ) : AppState :=
  if jsTrim text = "" then s
  else { s with entries := s.entries ++ [⟨s.nextId, sender, text, now⟩],
                nextId := s.nextId + 1 }

/-- `onmessage`, input-transcription branch (lines 100–102): append the delta
to `currentInput`. -/
def appendInput (s : AppState) (text : String) : AppState :=
  { s with currentInput := s.currentInput ++ text }

/-- `onmessage`, output-transcription branch (lines 103–106): append the
delta to `currentOutput`. -/
def appendOutput (s : AppState) (text : String) : AppState :=
  { s with currentOutput := s.currentOutput ++ text }

/-- `onmessage`, `turnComplete` branch (lines 108–117): finalize the user
buffer (if truthy, `addEntry('user', …)`), clear it, then the model buffer
likewise — user entry first, model entry second. -/
def handleTurnComplete (s : AppState) (now : ℤ) : AppState :=
  let s1 := if s.currentInput = "" then s else addEntry s .user s.currentInput now
  let s2 := { s1 with currentInput := "" }
  let s3 := if s2.currentOutput = "" then s2 else addEntry s2 .model s2.currentOutput now
  { s3 with currentOutput := "" }

/-! ## Playback scheduler (audio branch of `onmessage`, `interrupted`
branch, and the refs they drive) -/

/-- First half of the audio branch (lines 121–123), run when the guard
`base64Audio && audioContextsRef.current` passed: pull the cursor up to the
playback clock, `nextStartTime = max(nextStartTime, currentTime)`. The
decode that follows is asynchronous. -/
def audioChunkArrives (s : AppState) (clock : ℚ) : AppState :=
  { s with nextStartTime := max s.nextStartTime clock }

/-- Second half of the audio branch (lines 126–134), run when the decode
resolves: create a source, `start` it at the cursor, advance the cursor by
the buffer's duration, add the source to the live set. The code re-checks
nothing here. -/
def audioDecodeResumes (s : AppState) (buf : AudioBufferModel) : AppState :=
  { s with chunks := s.chunks ++ [⟨s.nextStartTime, buf.duration, true, false⟩],
           nextStartTime := s.nextStartTime + buf.duration }

/-- The audio branch of `onmessage` (lines 119–135) as one step, for the runs
in which the decode completes while the session is still up: guard on the
contexts being open, bump the cursor, decode, and schedule on success; a
decode failure abandons the chunk (the thrown error skips lines 126–134). -/
def handleAudio (s : AppState) (payload : String) (clock : ℚ) : AppState :=
  if s.contextsOpen then
    match decodeChunk payload with
    | .ok buf => audioDecodeResumes (audioChunkArrives s clock) buf
    | .error _ => audioChunkArrives s clock
  else s

/-- A sequence of inbound audio-chunk events, each a base64 payload together
with the output clock's reading at arrival. -/
def runAudio (s : AppState) (evts : List (String × ℚ)) : AppState :=
  evts.foldl (fun t e => handleAudio t e.1 e.2) s

/-- What `source.stop()` plus removal from `sourcesRef` does to one chunk;
identity on a chunk that already left the live set. -/
def stopLive (c : Chunk) : Chunk :=
  if c.live then { c with live := false, stopped := true } else c

/-- `onmessage`, `interrupted` branch (lines 137–141): stop every source in
the live set, clear the set, reset the cursor to 0. -/
def handleInterrupted (s : AppState) : AppState :=
  { s with chunks := s.chunks.map stopLive, nextStartTime := 0 }

/-! ## Session teardown and errors -/

/-- `cleanupSession` (lines 33–58) on the run where every step succeeds:
close the session, stop the microphone tracks, close both audio contexts,
stop and clear every scheduled source, reset the cursor, reset
`sessionState` to idle (error cleared!), clear both pending buffers.
`entries` is untouched. -/
def cleanupSession (s : AppState) : AppState :=
  { s with sessionOpen := false, streamOpen := false, contextsOpen := false,
           chunks := s.chunks.map stopLive, nextStartTime := 0,
           sessionState := ⟨false, false, none⟩,
           currentInput := "", currentOutput := "" }

/-- `cleanupSession` with its failure behaviour made explicit: the function
body has no `try`/`catch`, so a step that throws aborts the remaining steps
(the async function rejects). `failSessionClose` models `session.close()`
throwing (line 36), `failContextClose` models `audioContexts.input.close()`
rejecting (line 46); `.error` carries the state at the point the exception
escaped. -/
def cleanupSessionF (s : AppState) (failSessionClose failContextClose : Bool) :
    Except AppState AppState :=
  if s.sessionOpen && failSessionClose then .error s
  else
    let s1 := { s with sessionOpen := false }
    let s2 := { s1 with streamOpen := false }
    if s2.contextsOpen && failContextClose then .error s2
    else
      .ok { s2 with contextsOpen := false, chunks := s2.chunks.map stopLive,
                    nextStartTime := 0, sessionState := ⟨false, false, none⟩,
                    currentInput := "", currentOutput := "" }

/-- The message `onerror` writes into `sessionState.error` (line 145). -/
def connectionFailedMsg : String := "Connection failed. Please try again."

/-- `onerror` (lines 143–147): record the error message in `sessionState`,
then run `cleanupSession` (modelled here on the run where the teardown
completes). -/
def handleSessionError (s : AppState) : AppState :=
  cleanupSession
    { s with sessionState := { s.sessionState with error := some connectionFailedMsg } }

end AudioTranscribe

deriving instance DecidableEq for Except

namespace AudioTranscribe

/-! ## Codec lemmas -/

/-- A clamped sample is at most 1. -/
lemma clampSample_le_one (x : ℚ) : clampSample x ≤ 1 :=
  max_le (by norm_num) (min_le_left _ _)

/-- A clamped sample is at least -1. -/
lemma neg_one_le_clampSample (x : ℚ) : -1 ≤ clampSample x :=
  le_max_left _ _

/-- Clamping is the identity on `[-1, 1]`. -/
lemma clampSample_eq_self {x : ℚ} (h1 : -1 ≤ x) (h2 : x ≤ 1) : clampSample x = x := by
  unfold clampSample
  rw [min_eq_right h2, max_eq_right h1]

/-- The quantized sample never exceeds 32767. -/
lemma quantizeSample_ub (x : ℚ) : quantizeSample x ≤ 32767 := by
  unfold quantizeSample
  by_cases hc : 0 ≤ clampSample x
  · rw [if_pos hc]
    unfold truncQ
    rw [if_pos (mul_nonneg hc (by norm_num))]
    have h1 : clampSample x * 32767 ≤ (32767 : ℚ) := by
      have := clampSample_le_one x
      nlinarith
    calc ⌊clampSample x * 32767⌋ ≤ ⌊(32767 : ℚ)⌋ := Int.floor_le_floor h1
      _ = 32767 := by norm_num [Int.floor_eq_iff]
  · rw [if_neg hc]
    push_neg at hc
    unfold truncQ
    rw [if_neg (not_le.mpr (mul_neg_of_neg_of_pos hc (by norm_num)))]
    have h1 : clampSample x * 32768 ≤ (0 : ℚ) := le_of_lt (mul_neg_of_neg_of_pos hc (by norm_num))
    calc ⌈clampSample x * 32768⌉ ≤ ⌈(0 : ℚ)⌉ := Int.ceil_le_ceil h1
      _ = 0 := Int.ceil_zero
      _ ≤ 32767 := by norm_num

/-- The quantized sample is at least -32768. -/
lemma quantizeSample_lb (x : ℚ) : -32768 ≤ quantizeSample x := by
  unfold quantizeSample
  by_cases hc : 0 ≤ clampSample x
  · rw [if_pos hc]
    unfold truncQ
    rw [if_pos (mul_nonneg hc (by norm_num))]
    calc (-32768 : ℤ) ≤ 0 := by norm_num
      _ = ⌊(0 : ℚ)⌋ := Int.floor_zero.symm
      _ ≤ ⌊clampSample x * 32767⌋ := Int.floor_le_floor (mul_nonneg hc (by norm_num))
  · rw [if_neg hc]
    push_neg at hc
    unfold truncQ
    rw [if_neg (not_le.mpr (mul_neg_of_neg_of_pos hc (by norm_num)))]
    have h1 : (-32768 : ℚ) ≤ clampSample x * 32768 := by
      have := neg_one_le_clampSample x
      nlinarith
    have h2 : (-32768 : ℚ) ≤ (⌈clampSample x * 32768⌉ : ℚ) :=
      le_trans h1 (Int.le_ceil _)
    exact_mod_cast h2

/-- The signed 16-bit reading of the unsigned residue `q mod 2^16` recovers
`q` on the 16-bit range. -/
lemma toSigned_emod (q : ℤ) (h1 : -32768 ≤ q) (h2 : q ≤ 32767) :
    (if (q % 65536).toNat < 32768 then ((q % 65536).toNat : ℤ)
     else ((q % 65536).toNat : ℤ) - 65536) = q := by
  split <;> omega

/-- Decoding the two little-endian bytes of a 16-bit value recovers the
value divided by 32768. -/
lemma bytesToSamples_int16ToBytes (q : ℤ) (h1 : -32768 ≤ q) (h2 : q ≤ 32767)
    (rest : List ℕ) :
    bytesToSamples (int16ToBytes q ++ rest) = (q : ℚ) / 32768 :: bytesToSamples rest := by
  show bytesToSamples ((q % 65536).toNat % 256 :: (q % 65536).toNat / 256 :: rest) = _
  rw [bytesToSamples]
  simp only [int16FromBytes, Nat.mod_add_div]
  rw [toSigned_emod q h1 h2]

/-- The decoded samples of an encoded sample list, sample by sample. -/
lemma bytesToSamples_encode (samples : List ℚ) :
    bytesToSamples (encode samples)
      = samples.map fun x => ((quantizeSample x : ℤ) : ℚ) / 32768 := by
  induction samples with
  | nil => rfl
  | cons x xs ih =>
    rw [encode, bytesToSamples_int16ToBytes _ (quantizeSample_lb x) (quantizeSample_ub x),
      ih, List.map_cons]

/-- Encoding emits exactly two bytes per sample. -/
lemma encode_length (samples : List ℚ) : (encode samples).length = 2 * samples.length := by
  induction samples with
  | nil => rfl
  | cons x xs ih =>
    rw [encode, List.length_append, ih]
    simp [int16ToBytes]
    omega

/-- Core quantization bound: on `[-1, 1]` the decoded value of the quantized
sample is within `2/32768` of the original (one truncation step plus the
`×32767` / `÷32768` scale mismatch on the non-negative side). -/
lemma quantizeSample_close (x : ℚ) (h1 : -1 ≤ x) (h2 : x ≤ 1) :
    |x - ((quantizeSample x : ℤ) : ℚ) / 32768| ≤ 2 / 32768 := by
  unfold quantizeSample
  rw [clampSample_eq_self h1 h2]
  by_cases hx : 0 ≤ x
  · rw [if_pos hx]
    unfold truncQ
    rw [if_pos (mul_nonneg hx (by norm_num))]
    have hf1 : ((⌊x * 32767⌋ : ℤ) : ℚ) ≤ x * 32767 := Int.floor_le _
    have hf2 : x * 32767 - 1 < ((⌊x * 32767⌋ : ℤ) : ℚ) := Int.sub_one_lt_floor _
    rw [abs_le]
    constructor <;> linarith
  · push_neg at hx
    rw [if_neg (not_le.mpr hx)]
    unfold truncQ
    rw [if_neg (not_le.mpr (mul_neg_of_neg_of_pos hx (by norm_num)))]
    have hc1 : x * 32768 ≤ ((⌈x * 32768⌉ : ℤ) : ℚ) := Int.le_ceil _
    have hc2 : ((⌈x * 32768⌉ : ℤ) : ℚ) < x * 32768 + 1 := Int.ceil_lt_add_one _
    rw [abs_le]
    constructor <;> linarith

/-- C2 counterexample: for the single sample 65535/65536 ∈ [-1, 1], the
encode/decode round trip returns 16383/16384, which differs from the
original by 3/65536 > 1/32768 — the claimed one-quantization-step bound
fails, because `encode` scales non-negative samples by 32767 while
`decodeToAudioBuffer` divides by 32768. -/
theorem pcm_roundtrip_one_step_fails :
    decodeToAudioBuffer (encode [(65535 : ℚ) / 65536]) 24000 1
      = .ok ⟨[16383 / 16384], 1 / 24000⟩ ∧
    ¬ |(65535 : ℚ) / 65536 - 16383 / 16384| ≤ 1 / 32768 := by
  constructor
  · have hq : quantizeSample ((65535 : ℚ) / 65536) = 32766 := by
      unfold quantizeSample
      rw [clampSample_eq_self (by norm_num) (by norm_num), if_pos (by norm_num)]
      unfold truncQ
      rw [if_pos (by norm_num)]
      rw [show (65535 : ℚ) / 65536 * 32767 = 2147385345 / 65536 by norm_num]
      norm_num [Int.floor_eq_iff]
    have hb : int16ToBytes 32766 = [254, 127] := by decide
    have henc : encode [(65535 : ℚ) / 65536] = [254, 127] := by
      show int16ToBytes (quantizeSample ((65535 : ℚ) / 65536)) ++ encode [] = [254, 127]
      rw [hq, hb]
      rfl
    rw [henc]
    unfold decodeToAudioBuffer
    rw [if_pos (by norm_num)]
    simp only [bytesToSamples, int16FromBytes]
    norm_num
  · rw [show (65535 : ℚ) / 65536 - 16383 / 16384 = 3 / 65536 by norm_num,
      abs_of_nonneg (by norm_num)]
    norm_num

/-- C2 (amended): encoding a sequence of samples in [-1, 1] and decoding it
back yields a sample sequence of the same length in which every sample is
within 2/32768 of the original (not 1/32768: the ×32767 scale-up against the
÷32768 scale-down adds up to one extra step near +1). -/
theorem pcm_roundtrip_within_two_steps (samples : List ℚ)
    (h : ∀ x ∈ samples, -1 ≤ x ∧ x ≤ 1) :
    ∃ buf, decodeToAudioBuffer (encode samples) 24000 1 = .ok buf ∧
      buf.samples.length = samples.length ∧
      ∀ (i : ℕ) (a b : ℚ), samples[i]? = some a → buf.samples[i]? = some b →
        |a - b| ≤ 2 / 32768 := by
  refine ⟨⟨bytesToSamples (encode samples),
    (((encode samples).length / 2 / 1 : ℕ) : ℚ) / 24000⟩, ?_, ?_, ?_⟩
  · unfold decodeToAudioBuffer
    rw [if_pos (by rw [encode_length]; omega)]
  · rw [bytesToSamples_encode, List.length_map]
  · intro i a b ha hb
    rw [bytesToSamples_encode, List.getElem?_map, ha, Option.map_some'] at hb
    have hmem : a ∈ samples := by
      obtain ⟨hi, he⟩ := List.getElem?_eq_some.mp ha
      exact he ▸ List.getElem_mem hi
    obtain rfl : ((quantizeSample a : ℤ) : ℚ) / 32768 = b := by
      injection hb
    exact quantizeSample_close a (h a hmem).1 (h a hmem).2

/-- Witness for the amended C2 round-trip bound at the concrete sample
list `[1/2]`. -/
theorem pcm_roundtrip_within_two_steps_witness :
    ∃ buf, decodeToAudioBuffer (encode [(1 : ℚ) / 2]) 24000 1 = .ok buf ∧
      buf.samples.length = [(1 : ℚ) / 2].length ∧
      ∀ (i : ℕ) (a b : ℚ), [(1 : ℚ) / 2][i]? = some a → buf.samples[i]? = some b →
        |a - b| ≤ 2 / 32768 :=
  pcm_roundtrip_within_two_steps [(1 : ℚ) / 2] (by
    intro x hx
    rw [List.mem_singleton] at hx
    subst hx
    norm_num)

/-! ## Playback scheduler lemmas -/

/-- A successfully decoded buffer has non-negative duration. -/
lemma decodeToAudioBuffer_duration_nonneg {bytes : List ℕ} {r : ℚ} {ch : ℕ}
    {buf : AudioBufferModel} (hr : 0 ≤ r)
    (h : decodeToAudioBuffer bytes r ch = .ok buf) : 0 ≤ buf.duration := by
  unfold decodeToAudioBuffer at h
  split at h
  · injection h with h2
    subst h2
    exact div_nonneg (Nat.cast_nonneg _) hr
  · exact absurd h (by simp)

/-- A chunk that made it through the app's decode pipeline has non-negative
duration. -/
lemma decodeChunk_duration_nonneg {p : String} {buf : AudioBufferModel}
    (h : decodeChunk p = .ok buf) : 0 ≤ buf.duration := by
  unfold decodeChunk at h
  cases hd : decode p with
  | ok bytes =>
    rw [hd] at h
    simp only [Except.bind] at h
    exact decodeToAudioBuffer_duration_nonneg (by norm_num) h
  | error e =>
    rw [hd] at h
    simp [Except.bind] at h

/-- One audio event never moves the cursor backwards. -/
lemma nextStartTime_le_handleAudio (s : AppState) (p : String) (clk : ℚ) :
    s.nextStartTime ≤ (handleAudio s p clk).nextStartTime := by
  unfold handleAudio
  by_cases hc : s.contextsOpen
  · rw [if_pos hc]
    cases hd : decodeChunk p with
    | ok buf =>
      have hdur := decodeChunk_duration_nonneg hd
      simp only [audioDecodeResumes, audioChunkArrives]
      have h1 : s.nextStartTime ≤ max s.nextStartTime clk := le_max_left _ _
      linarith
    | error e =>
      simp only [audioChunkArrives]
      exact le_max_left _ _
  · rw [if_neg hc]

/-- The cursor never decreases across any sequence of audio events. -/
lemma nextStartTime_le_runAudio (evts : List (String × ℚ)) (s : AppState) :
    s.nextStartTime ≤ (runAudio s evts).nextStartTime := by
  induction evts generalizing s with
  | nil => exact le_refl _
  | cons e t ih =>
    exact le_trans (nextStartTime_le_handleAudio s e.1 e.2) (ih (handleAudio s e.1 e.2))

/-- Scheduler invariant: every recorded chunk has non-negative duration and
ends no later than the cursor, and the chunk list is pairwise ordered
(each chunk starts no earlier than any earlier chunk's end). -/
def SchedInv (s : AppState) : Prop :=
  (∀ c ∈ s.chunks, 0 ≤ c.duration ∧ c.start + c.duration ≤ s.nextStartTime) ∧
  s.chunks.Pairwise fun a b => a.start + a.duration ≤ b.start

/-- The scheduler invariant is preserved by one audio event. -/
lemma schedInv_handleAudio {s : AppState} (h : SchedInv s) (p : String) (clk : ℚ) :
    SchedInv (handleAudio s p clk) := by
  obtain ⟨hend, hpw⟩ := h
  unfold handleAudio
  by_cases hc : s.contextsOpen
  · rw [if_pos hc]
    cases hd : decodeChunk p with
    | ok buf =>
      have hdur := decodeChunk_duration_nonneg hd
      have hmax : s.nextStartTime ≤ max s.nextStartTime clk := le_max_left _ _
      constructor
      · intro c hcmem
        simp only [audioDecodeResumes, audioChunkArrives, List.mem_append,
          List.mem_singleton] at hcmem
        dsimp only [audioDecodeResumes, audioChunkArrives]
        rcases hcmem with hold | hnew
        · refine ⟨(hend c hold).1, ?_⟩
          have := (hend c hold).2
          linarith
        · subst hnew
          exact ⟨hdur, le_refl _⟩
      · dsimp only [audioDecodeResumes, audioChunkArrives]
        rw [List.pairwise_append]
        refine ⟨hpw, List.pairwise_singleton _ _, ?_⟩
        intro a ha b hb
        rw [List.mem_singleton] at hb
        subst hb
        have := (hend a ha).2
        dsimp only
        linarith
    | error e =>
      constructor
      · intro c hcmem
        dsimp only [audioChunkArrives] at hcmem ⊢
        exact ⟨(hend c hcmem).1, le_trans (hend c hcmem).2 (le_max_left _ _)⟩
      · exact hpw
  · rw [if_neg hc]
    exact ⟨hend, hpw⟩

/-- The scheduler invariant is preserved by any sequence of audio events. -/
lemma schedInv_runAudio {s : AppState} (h : SchedInv s) (evts : List (String × ℚ)) :
    SchedInv (runAudio s evts) := by
  induction evts generalizing s with
  | nil => exact h
  | cons e t ih => exact ih (schedInv_handleAudio h e.1 e.2)

/-- The invariant holds at the start of a session. -/
lemma schedInv_activeState : SchedInv activeState := by
  constructor
  · intro c hc
    simp [activeState] at hc
  · simp [activeState]

/-- C1: over any sequence of inbound audio-chunk events with arbitrary
payloads and arbitrary clock times, the `nextStartTime` cursor is
non-decreasing across the sequence (any prefix's cursor is at most the full
sequence's), and every scheduled chunk starts no earlier than any prior
chunk's start time plus that prior chunk's duration — because each enqueue
first sets the cursor to `max(nextStartTime, currentTime)`, starts the chunk
there, then advances the cursor by the chunk's duration. -/
theorem scheduling_monotonicity (pre suf : List (String × ℚ)) :
    (runAudio activeState pre).nextStartTime
      ≤ (runAudio activeState (pre ++ suf)).nextStartTime ∧
    ∀ (i j : ℕ) (a b : Chunk), i < j →
      (runAudio activeState (pre ++ suf)).chunks[i]? = some a →
      (runAudio activeState (pre ++ suf)).chunks[j]? = some b →
      a.start + a.duration ≤ b.start := by
  constructor
  · unfold runAudio
    rw [List.foldl_append]
    exact nextStartTime_le_runAudio suf (runAudio activeState pre)
  · intro i j a b hij ha hb
    have hinv := (schedInv_runAudio schedInv_activeState (pre ++ suf)).2
    rw [List.pairwise_iff_getElem] at hinv
    obtain ⟨hi, hai⟩ := List.getElem?_eq_some.mp ha
    obtain ⟨hj, hbj⟩ := List.getElem?_eq_some.mp hb
    have := hinv i j hi hj hij
    rw [hai, hbj] at this
    exact this

/-- The payload `"AAA="` decodes to one zero sample of duration 1/24000. -/
lemma decodeChunk_AAA : decodeChunk "AAA=" = .ok ⟨[0], 1 / 24000⟩ := by
  have h : decode "AAA=" = .ok [0, 0] := by decide
  simp [decodeChunk, h, Except.bind, decodeToAudioBuffer, bytesToSamples, int16FromBytes]

/-- Concrete one-event run: one zero chunk scheduled at 0. -/
lemma runAudio_one :
    runAudio activeState [("AAA=", 0)]
      = { activeState with chunks := [⟨0, 1 / 24000, true, false⟩],
                           nextStartTime := 1 / 24000 } := by
  show handleAudio activeState "AAA=" 0 = _
  simp [handleAudio, decodeChunk_AAA, audioDecodeResumes, audioChunkArrives, activeState]

/-- Concrete two-event run: a second chunk with a later clock lands after the
first. -/
lemma runAudio_two :
    runAudio activeState [("AAA=", 0), ("AAA=", 5)]
      = { activeState with
            chunks := [⟨0, 1 / 24000, true, false⟩, ⟨5, 1 / 24000, true, false⟩],
            nextStartTime := 5 + 1 / 24000 } := by
  show handleAudio (runAudio activeState [("AAA=", 0)]) "AAA=" 5 = _
  rw [runAudio_one]
  simp [handleAudio, decodeChunk_AAA, audioDecodeResumes, audioChunkArrives, activeState]
  norm_num [max_def]

/-- Witness for C1 at the concrete sequence `[("AAA=", 0)]` then
`[("AAA=", 5)]`: the cursor does not decrease, and the second chunk starts
after the first chunk's end. -/
theorem scheduling_monotonicity_witness :
    (runAudio activeState [("AAA=", 0)]).nextStartTime
      ≤ (runAudio activeState ([("AAA=", 0)] ++ [("AAA=", 5)])).nextStartTime ∧
    (0 : ℚ) + 1 / 24000 ≤ 5 := by
  have h := scheduling_monotonicity [("AAA=", 0)] [("AAA=", 5)]
  have hfull : runAudio activeState ([("AAA=", 0)] ++ [("AAA=", 5)])
      = runAudio activeState [("AAA=", 0), ("AAA=", 5)] := rfl
  have hc0 : (runAudio activeState ([("AAA=", 0)] ++ [("AAA=", 5)])).chunks[0]?
      = some ⟨0, 1 / 24000, true, false⟩ := by
    rw [hfull, runAudio_two]
    rfl
  have hc1 : (runAudio activeState ([("AAA=", 0)] ++ [("AAA=", 5)])).chunks[1]?
      = some ⟨5, 1 / 24000, true, false⟩ := by
    rw [hfull, runAudio_two]
    rfl
  exact ⟨h.1, h.2 0 1 _ _ (by norm_num) hc0 hc1⟩

/-- Stopping an already-stopped (or already-dead) source again changes
nothing. -/
lemma stopLive_stopLive (c : Chunk) : stopLive (stopLive c) = stopLive c := by
  unfold stopLive
  by_cases h : c.live
  · rw [if_pos h]
    rfl
  · rw [if_neg h, if_neg h]

/-- Stopping the whole live set twice equals stopping it once. -/
lemma map_stopLive_idem (l : List Chunk) :
    (l.map stopLive).map stopLive = l.map stopLive := by
  rw [List.map_map]
  refine List.map_congr_left ?_
  intro c hc
  exact stopLive_stopLive c

/-- Every chunk recorded during a run of audio events is still in the live
set (nothing stops or removes a source during plain audio handling). -/
lemma chunks_live_runAudio (evts : List (String × ℚ)) :
    ∀ c ∈ (runAudio activeState evts).chunks, c.live = true := by
  suffices h : ∀ s : AppState, (∀ c ∈ s.chunks, c.live = true) →
      ∀ c ∈ (runAudio s evts).chunks, c.live = true by
    refine h activeState ?_
    intro c hc
    simp [activeState] at hc
  induction evts with
  | nil => exact fun s hs => hs
  | cons e t ih =>
    intro s hs
    refine ih (handleAudio s e.1 e.2) ?_
    unfold handleAudio
    by_cases hc : s.contextsOpen
    · rw [if_pos hc]
      cases hd : decodeChunk e.1 with
      | ok buf =>
        intro c hcm
        simp only [audioDecodeResumes, audioChunkArrives, List.mem_append,
          List.mem_singleton] at hcm
        rcases hcm with hold | hnew
        · exact hs c hold
        · subst hnew
          rfl
      | error e2 => exact hs
    · rw [if_neg hc]
      exact hs

/-- C3: after any sequence of enqueues followed by the `interrupted` handler,
every chunk of the live set has received a stop and left the set, and the
cursor is reset to 0; the handler is idempotent, and calling it on the
initial (empty) live set is a no-op. -/
theorem interrupt_clears_playback (evts : List (String × ℚ)) :
    (∀ c ∈ (handleInterrupted (runAudio activeState evts)).chunks,
        c.stopped = true ∧ c.live = false) ∧
    (handleInterrupted (runAudio activeState evts)).nextStartTime = 0 ∧
    (∀ t : AppState, handleInterrupted (handleInterrupted t) = handleInterrupted t) ∧
    handleInterrupted activeState = activeState := by
  refine ⟨?_, rfl, ?_, rfl⟩
  · intro c hc
    simp only [handleInterrupted, List.mem_map] at hc
    obtain ⟨c0, hc0, rfl⟩ := hc
    have hlive := chunks_live_runAudio evts c0 hc0
    simp [stopLive, hlive]
  · intro t
    unfold handleInterrupted
    simp [map_stopLive_idem]
    exact fun a _ => stopLive_stopLive a

/-- Witness for C3 at the one-chunk run: the chunk is stopped and dead after
the interruption, the cursor is 0, and interrupting the empty initial state
changes nothing. -/
theorem interrupt_clears_playback_witness :
    ((⟨0, 1 / 24000, false, true⟩ : Chunk).stopped = true ∧
      (⟨0, 1 / 24000, false, true⟩ : Chunk).live = false) ∧
    (handleInterrupted (runAudio activeState [("AAA=", 0)])).nextStartTime = 0 ∧
    handleInterrupted activeState = activeState := by
  have h := interrupt_clears_playback [("AAA=", 0)]
  have hmem : (⟨0, 1 / 24000, false, true⟩ : Chunk)
      ∈ (handleInterrupted (runAudio activeState [("AAA=", 0)])).chunks := by
    have e : (handleInterrupted (runAudio activeState [("AAA=", 0)])).chunks
        = [⟨0, 1 / 24000, false, true⟩] := by
      rw [runAudio_one]
      simp [handleInterrupted, stopLive]
    rw [e]
    exact List.mem_singleton_self _
  exact ⟨h.1 _ hmem, h.2.1, h.2.2.2⟩

/-! ## Turn aggregator theorems -/

/-- The empty string trims to itself. -/
lemma jsTrim_empty : jsTrim "" = "" := rfl

/-- C4: for any pending buffer pair, the turn-complete handler emits one
entry per buffer that is non-empty after trimming (nothing for an empty
buffer), user entry before model entry, with the fresh id and the given
timestamp, and clears both buffers; concretely, deltas "He", "llo" on the
user channel yield exactly one entry `{user, "Hello"}`, and a turn-complete
with both buffers empty changes nothing. -/
theorem turn_complete_aggregation (s : AppState) (now : ℤ) :
    (handleTurnComplete s now).currentInput = "" ∧
    (handleTurnComplete s now).currentOutput = "" ∧
    (handleTurnComplete s now).entries =
      s.entries
        ++ (if jsTrim s.currentInput = "" then []
            else [⟨s.nextId, .user, s.currentInput, now⟩])
        ++ (if jsTrim s.currentOutput = "" then []
            else [⟨(if jsTrim s.currentInput = "" then s.nextId else s.nextId + 1),
                   .model, s.currentOutput, now⟩]) ∧
    (handleTurnComplete (appendInput (appendInput activeState "He") "llo") 0).entries
      = [⟨0, .user, "Hello", 0⟩] ∧
    handleTurnComplete activeState 0 = activeState := by
  refine ⟨?_, ?_, ?_, by decide, by decide⟩ <;>
    by_cases h1 : s.currentInput = "" <;>
      by_cases h2 : jsTrim s.currentInput = "" <;>
        by_cases h3 : s.currentOutput = "" <;>
          by_cases h4 : jsTrim s.currentOutput = "" <;>
            simp_all [handleTurnComplete, addEntry, jsTrim_empty]

/-- C9 (frame): the `interrupted` handler touches only playback state — the
transcript log, both pending buffers, the session state and all resource
flags are unchanged. -/
theorem interrupted_frame (s : AppState) :
    (handleInterrupted s).entries = s.entries ∧
    (handleInterrupted s).currentInput = s.currentInput ∧
    (handleInterrupted s).currentOutput = s.currentOutput ∧
    (handleInterrupted s).sessionState = s.sessionState ∧
    (handleInterrupted s).contextsOpen = s.contextsOpen ∧
    (handleInterrupted s).streamOpen = s.streamOpen ∧
    (handleInterrupted s).sessionOpen = s.sessionOpen ∧
    (handleInterrupted s).nextId = s.nextId :=
  ⟨rfl, rfl, rfl, rfl, rfl, rfl, rfl, rfl⟩

/-- C10: `addEntry` appends nothing when the text trims to empty, and
otherwise appends one entry whose stored text is the untrimmed original;
so every appended entry contains a non-whitespace character, yet keeps its
leading and trailing whitespace. Concretely, "  Hi  " is stored verbatim and
"   " is dropped. -/
theorem addEntry_text_untrimmed (s : AppState) (sender : Sender) (text : String)
    (now : ℤ) :
    (addEntry s sender text now).entries =
      s.entries ++ (if jsTrim text = "" then [] else [⟨s.nextId, sender, text, now⟩]) ∧
    (∀ e ∈ (addEntry s sender text now).entries,
        e ∈ s.entries ∨ (e.text = text ∧ jsTrim e.text ≠ "")) ∧
    (addEntry activeState .user "  Hi  " 0).entries.map TranscriptionEntry.text
      = ["  Hi  "] ∧
    jsTrim "  Hi  " = "Hi" ∧
    (addEntry activeState .user "   " 0).entries = [] := by
  refine ⟨?_, ?_, by decide, by decide, by decide⟩
  · by_cases h : jsTrim text = "" <;> simp [addEntry, h]
  · intro e he
    by_cases h : jsTrim text = ""
    · rw [addEntry, if_pos h] at he
      exact Or.inl he
    · rw [addEntry, if_neg h] at he
      simp only [List.mem_append, List.mem_singleton] at he
      rcases he with hold | hnew
      · exact Or.inl hold
      · subst hnew
        exact Or.inr ⟨rfl, h⟩

/-- Witness for C10: the entry produced from the padded text " x " stores
" x " verbatim (and " x " does not trim to empty). -/
theorem addEntry_text_untrimmed_witness :
    (⟨0, Sender.user, " x ", 5⟩ : TranscriptionEntry) ∈ activeState.entries ∨
      ((⟨0, Sender.user, " x ", 5⟩ : TranscriptionEntry).text = " x " ∧
        jsTrim (⟨0, Sender.user, " x ", 5⟩ : TranscriptionEntry).text ≠ "") :=
  (addEntry_text_untrimmed activeState .user " x " 5).2.1
    ⟨0, Sender.user, " x ", 5⟩ (by decide)

/-! ## Error-handling theorems -/

/-- The all-`?` payload is not valid base64. -/
lemma decodeChunk_malformed : decodeChunk "????" = .error .malformedData := by
  have h : decode "????" = .error .malformedData := by decide
  simp [decodeChunk, h, Except.bind]

/-- `"AAAA"` is valid base64 but decodes to three bytes — not a whole number
of 16-bit samples. -/
lemma decodeChunk_oddBytes : decodeChunk "AAAA" = .error .decodeError := by
  have h : decode "AAAA" = .ok [0, 0, 0] := by decide
  simp [decodeChunk, h, Except.bind, decodeToAudioBuffer]

/-- C6: a failing chunk decode is contained: no chunk is scheduled, the
session is not torn down, and the session state, transcript and buffers are
all unchanged (only the playback cursor may have been pulled up to the
clock, which happens before the decode). -/
theorem decode_failure_contained (s : AppState) (payload : String) (clock : ℚ)
    (err : CodecError) (h : decodeChunk payload = .error err) :
    (handleAudio s payload clock).chunks = s.chunks ∧
    (handleAudio s payload clock).sessionState = s.sessionState ∧
    (handleAudio s payload clock).entries = s.entries ∧
    (handleAudio s payload clock).currentInput = s.currentInput ∧
    (handleAudio s payload clock).currentOutput = s.currentOutput ∧
    (handleAudio s payload clock).contextsOpen = s.contextsOpen ∧
    (handleAudio s payload clock).streamOpen = s.streamOpen ∧
    (handleAudio s payload clock).sessionOpen = s.sessionOpen := by
  by_cases hc : s.contextsOpen <;>
    simp [handleAudio, h, hc, audioChunkArrives]

/-- Witness for C6 at the malformed payload `"????"` (invalid base64) and at
`"AAAA"` (odd decoded byte length), against the active session state. -/
theorem decode_failure_contained_witness :
    ((handleAudio activeState "????" 3).chunks = activeState.chunks ∧
      (handleAudio activeState "????" 3).sessionState = activeState.sessionState ∧
      (handleAudio activeState "????" 3).entries = activeState.entries ∧
      (handleAudio activeState "????" 3).currentInput = activeState.currentInput ∧
      (handleAudio activeState "????" 3).currentOutput = activeState.currentOutput ∧
      (handleAudio activeState "????" 3).contextsOpen = activeState.contextsOpen ∧
      (handleAudio activeState "????" 3).streamOpen = activeState.streamOpen ∧
      (handleAudio activeState "????" 3).sessionOpen = activeState.sessionOpen) ∧
    (handleAudio activeState "AAAA" 3).chunks = activeState.chunks :=
  ⟨decode_failure_contained activeState "????" 3 .malformedData decodeChunk_malformed,
    (decode_failure_contained activeState "AAAA" 3 .decodeError decodeChunk_oddBytes).1⟩

/-- C5 (code-bug evidence): `onerror` records the error message, but the
teardown it triggers unconditionally resets `sessionState` — including the
error — to the idle value, so after the forced teardown completes the error
message is gone rather than persisting until the next `start()`. -/
theorem error_message_cleared_by_teardown :
    ({ activeState with sessionState :=
        { activeState.sessionState with error := some connectionFailedMsg } }).sessionState.error
      = some connectionFailedMsg ∧
    (handleSessionError activeState).sessionState.error = none ∧
    (handleSessionError activeState).sessionState = ⟨false, false, none⟩ :=
  ⟨rfl, rfl, rfl⟩

/-- C7 (code-bug evidence): teardown is idempotent and safe with no active
session, and the no-failure run resets everything — but `cleanupSession` has
no per-step error handling, so when the transport close throws the run
aborts with the microphone and contexts still open and the state still
active, and when a context close rejects the scheduled sources are never
stopped and the cursor is never reset. -/
theorem teardown_step_failure_aborts :
    (∀ t : AppState, cleanupSession (cleanupSession t) = cleanupSession t) ∧
    cleanupSession initState = initState ∧
    (cleanupSession activeState).sessionState = ⟨false, false, none⟩ ∧
    (cleanupSession activeState).currentInput = "" ∧
    (cleanupSession activeState).currentOutput = "" ∧
    cleanupSessionF activeState false false = .ok (cleanupSession activeState) ∧
    cleanupSessionF activeState true false = .error activeState ∧
    activeState.streamOpen = true ∧
    activeState.contextsOpen = true ∧
    activeState.sessionState.isActive = true ∧
    cleanupSessionF (audioDecodeResumes activeState ⟨[0], 1 / 24000⟩) false true
      = .error { audioDecodeResumes activeState ⟨[0], 1 / 24000⟩ with
                 sessionOpen := false, streamOpen := false } ∧
    (audioDecodeResumes activeState ⟨[0], 1 / 24000⟩).chunks.map Chunk.live = [true] ∧
    (audioDecodeResumes activeState ⟨[0], 1 / 24000⟩).nextStartTime ≠ 0 := by
  refine ⟨?_, rfl, rfl, rfl, rfl, rfl, rfl, rfl, rfl, rfl, rfl, rfl, ?_⟩
  · intro t
    unfold cleanupSession
    simp [map_stopLive_idem]
    exact fun a _ => stopLive_stopLive a
  · show (0 : ℚ) + 1 / 24000 ≠ 0
    norm_num

/-- C8 (code-bug evidence): a chunk whose decode was in flight when teardown
ran is still scheduled afterwards — the audio handler checks
`audioContextsRef` only before the `await`, so after a completed teardown
(live set empty, contexts closed, cursor 0) the resumed continuation starts
the source anyway, adds it to the live set and advances the cursor. -/
theorem inflight_chunk_scheduled_after_teardown :
    decodeChunk "AAA=" = .ok ⟨[0], 1 / 24000⟩ ∧
    activeState.contextsOpen = true ∧
    (cleanupSession (audioChunkArrives activeState 0)).chunks = [] ∧
    (cleanupSession (audioChunkArrives activeState 0)).contextsOpen = false ∧
    (cleanupSession (audioChunkArrives activeState 0)).sessionState = ⟨false, false, none⟩ ∧
    (cleanupSession (audioChunkArrives activeState 0)).nextStartTime = 0 ∧
    (audioDecodeResumes (cleanupSession (audioChunkArrives activeState 0))
        ⟨[0], 1 / 24000⟩).chunks = [⟨0, 1 / 24000, true, false⟩] ∧
    (audioDecodeResumes (cleanupSession (audioChunkArrives activeState 0))
        ⟨[0], 1 / 24000⟩).contextsOpen = false ∧
    (audioDecodeResumes (cleanupSession (audioChunkArrives activeState 0))
        ⟨[0], 1 / 24000⟩).nextStartTime = 1 / 24000 := by
  refine ⟨decodeChunk_AAA, rfl, rfl, rfl, rfl, rfl, rfl, rfl, ?_⟩
  show (0 : ℚ) + 1 / 24000 = 1 / 24000
  norm_num

end AudioTranscribe
